import Mathlib

/-!
Shallow embedding of `src/des.c` (FreeSec DES engine specialised for
crypt(3)): static DES tables, the derived-table generator
`des_init_tables`, the block codec `unpack_block` / `pack_block`, the salt
modulator `des_set_salt`, the key scheduler `des_set_key`, the round engine
`do_des`, and the public entry point `des_cipher_block`.

Machine integers are modelled as `Nat`; the C values are `uint32_t`, so
`% 2^32` is inserted exactly where the C computation can exceed 32 bits
(the key-rotation shift `k0 << shifts`).  Byte buffers (`uint8_t *`) are
modelled as `List Nat`; the `&&& 0xff` at each byte read models the
`uint8_t` element type.  `count` and the return status are the C `long`
and `int` (`Int` and `Nat` here; only 0/1 are returned).
-/

namespace Des

/-! ### Static DES tables (verbatim from des.c) -/

def IP : List Nat := [
  58, 50, 42, 34, 26, 18, 10,  2, 60, 52, 44, 36, 28, 20, 12,  4,
  62, 54, 46, 38, 30, 22, 14,  6, 64, 56, 48, 40, 32, 24, 16,  8,
  57, 49, 41, 33, 25, 17,  9,  1, 59, 51, 43, 35, 27, 19, 11,  3,
  61, 53, 45, 37, 29, 21, 13,  5, 63, 55, 47, 39, 31, 23, 15,  7]

def key_perm : List Nat := [
  57, 49, 41, 33, 25, 17,  9,  1, 58, 50, 42, 34, 26, 18,
  10,  2, 59, 51, 43, 35, 27, 19, 11,  3, 60, 52, 44, 36,
  63, 55, 47, 39, 31, 23, 15,  7, 62, 54, 46, 38, 30, 22,
  14,  6, 61, 53, 45, 37, 29, 21, 13,  5, 28, 20, 12,  4]

def key_shifts : List Nat := [1, 1, 2, 2, 2, 2, 2, 2, 1, 2, 2, 2, 2, 2, 2, 1]

def comp_perm : List Nat := [
  14, 17, 11, 24,  1,  5,  3, 28, 15,  6, 21, 10,
  23, 19, 12,  4, 26,  8, 16,  7, 27, 20, 13,  2,
  41, 52, 31, 37, 47, 55, 30, 40, 51, 45, 33, 48,
  44, 49, 39, 56, 34, 53, 46, 42, 50, 36, 29, 32]

def sbox : List (List Nat) := [
  [14,  4, 13,  1,  2, 15, 11,  8,  3, 10,  6, 12,  5,  9,  0,  7,
    0, 15,  7,  4, 14,  2, 13,  1, 10,  6, 12, 11,  9,  5,  3,  8,
    4,  1, 14,  8, 13,  6,  2, 11, 15, 12,  9,  7,  3, 10,  5,  0,
   15, 12,  8,  2,  4,  9,  1,  7,  5, 11,  3, 14, 10,  0,  6, 13],
  [15,  1,  8, 14,  6, 11,  3,  4,  9,  7,  2, 13, 12,  0,  5, 10,
    3, 13,  4,  7, 15,  2,  8, 14, 12,  0,  1, 10,  6,  9, 11,  5,
    0, 14,  7, 11, 10,  4, 13,  1,  5,  8, 12,  6,  9,  3,  2, 15,
   13,  8, 10,  1,  3, 15,  4,  2, 11,  6,  7, 12,  0,  5, 14,  9],
  [10,  0,  9, 14,  6,  3, 15,  5,  1, 13, 12,  7, 11,  4,  2,  8,
   13,  7,  0,  9,  3,  4,  6, 10,  2,  8,  5, 14, 12, 11, 15,  1,
   13,  6,  4,  9,  8, 15,  3,  0, 11,  1,  2, 12,  5, 10, 14,  7,
    1, 10, 13,  0,  6,  9,  8,  7,  4, 15, 14,  3, 11,  5,  2, 12],
  [ 7, 13, 14,  3,  0,  6,  9, 10,  1,  2,  8,  5, 11, 12,  4, 15,
   13,  8, 11,  5,  6, 15,  0,  3,  4,  7,  2, 12,  1, 10, 14,  9,
   10,  6,  9,  0, 12, 11,  7, 13, 15,  1,  3, 14,  5,  2,  8,  4,
    3, 15,  0,  6, 10,  1, 13,  8,  9,  4,  5, 11, 12,  7,  2, 14],
  [ 2, 12,  4,  1,  7, 10, 11,  6,  8,  5,  3, 15, 13,  0, 14,  9,
   14, 11,  2, 12,  4,  7, 13,  1,  5,  0, 15, 10,  3,  9,  8,  6,
    4,  2,  1, 11, 10, 13,  7,  8, 15,  9, 12,  5,  6,  3,  0, 14,
   11,  8, 12,  7,  1, 14,  2, 13,  6, 15,  0,  9, 10,  4,  5,  3],
  [12,  1, 10, 15,  9,  2,  6,  8,  0, 13,  3,  4, 14,  7,  5, 11,
   10, 15,  4,  2,  7, 12,  9,  5,  6,  1, 13, 14,  0, 11,  3,  8,
    9, 14, 15,  5,  2,  8, 12,  3,  7,  0,  4, 10,  1, 13, 11,  6,
    4,  3,  2, 12,  9,  5, 15, 10, 11, 14,  1,  7,  6,  0,  8, 13],
  [ 4, 11,  2, 14, 15,  0,  8, 13,  3, 12,  9,  7,  5, 10,  6,  1,
   13,  0, 11,  7,  4,  9,  1, 10, 14,  3,  5, 12,  2, 15,  8,  6,
    1,  4, 11, 13, 12,  3,  7, 14, 10, 15,  6,  8,  0,  5,  9,  2,
    6, 11, 13,  8,  1,  4, 10,  7,  9,  5,  0, 15, 14,  2,  3, 12],
  [13,  2,  8,  4,  6, 15, 11,  1, 10,  9,  3, 14,  5,  0, 12,  7,
    1, 15, 13,  8, 10,  3,  7,  4, 12,  5,  6, 11,  0, 14,  9,  2,
    7, 11,  4,  1,  9, 12, 14,  2,  0,  6, 10, 13, 15,  3,  5,  8,
    2,  1, 14,  7,  4, 10,  8, 13, 15, 12,  9,  0,  3,  5,  6, 11]]

def pbox : List Nat := [
  16,  7, 20, 21, 29, 12, 28, 17,  1, 15, 23, 26,  5, 18, 31, 10,
   2,  8, 24, 14, 32, 27,  3,  9, 19, 13, 30,  6, 22, 11,  4, 25]

def bits32 : List Nat := [
  0x80000000, 0x40000000, 0x20000000, 0x10000000,
  0x08000000, 0x04000000, 0x02000000, 0x01000000,
  0x00800000, 0x00400000, 0x00200000, 0x00100000,
  0x00080000, 0x00040000, 0x00020000, 0x00010000,
  0x00008000, 0x00004000, 0x00002000, 0x00001000,
  0x00000800, 0x00000400, 0x00000200, 0x00000100,
  0x00000080, 0x00000040, 0x00000020, 0x00000010,
  0x00000008, 0x00000004, 0x00000002, 0x00000001]

def bits8 : List Nat := [0x80, 0x40, 0x20, 0x10, 0x08, 0x04, 0x02, 0x01]

/-- `bits28 = bits32 + 4` (pointer offset in des.c). -/
def bits28 (i : Nat) : Nat := bits32.getD (i + 4) 0

/-- `bits24 = bits28 + 4 = bits32 + 8` (pointer offset in des.c). -/
def bits24 (i : Nat) : Nat := bits32.getD (i + 8) 0

/-! ### Derived tables (`des_init_tables`)

Each derived global array becomes a function of its indices; the loop
that fills `table[i]` becomes the body at index `i`.  Inverse-permutation
arrays, which C fills by writing `inv[p[i] - 1] = i`, become `indexOf`
searches (`255` is the "no output bit" sentinel, as in des.c).
-/

/-- `u_sbox[i][j] = sbox[i][b]` with the input-bit reorder `b`. -/
def u_sbox (i j : Nat) : Nat :=
  (sbox.getD i []).getD ((j &&& 0x20) ||| ((j &&& 1) <<< 4) ||| ((j >>> 1) &&& 0xf)) 0

/-- `m_sbox[b][(i << 6) | j] = (u_sbox[2b][i] << 4) | u_sbox[2b+1][j]`:
for an index `x < 4096`, `i = x >>> 6` and `j = x &&& 0x3f`. -/
def m_sbox (b x : Nat) : Nat :=
  (u_sbox (b <<< 1) (x >>> 6) <<< 4) ||| u_sbox ((b <<< 1) + 1) (x &&& 0x3f)

/-- `final_perm[i] = IP[i] - 1`. -/
def final_perm (i : Nat) : Nat := IP.getD i 0 - 1

/-- `init_perm[IP[i] - 1] = i`, i.e. the position of `j` in `IP.map (· - 1)`. -/
def init_perm (j : Nat) : Nat := (IP.map (fun x => x - 1)).indexOf j

/-- `inv_key_perm[key_perm[i] - 1] = i`, other entries are the sentinel 255. -/
def inv_key_perm (j : Nat) : Nat :=
  let k := key_perm.indexOf (j + 1)
  if k < 56 then k else 255

/-- `inv_comp_perm[comp_perm[i] - 1] = i`, other entries are the sentinel 255. -/
def inv_comp_perm (j : Nat) : Nat :=
  let k := comp_perm.indexOf (j + 1)
  if k < 48 then k else 255

/-- `un_pbox[pbox[i] - 1] = i`. -/
def un_pbox (j : Nat) : Nat := pbox.indexOf (j + 1)

/-- OR-accumulation of `f 0, ..., f (n-1)`, modelling the C `|=` loops. -/
def orAccum (n : Nat) (f : Nat → Nat) : Nat :=
  (List.range n).foldl (fun acc j => acc ||| f j) 0

def ip_maskl (k i : Nat) : Nat :=
  orAccum 8 (fun j =>
    if i &&& bits8.getD j 0 ≠ 0 then
      if init_perm (8 * k + j) < 32 then bits32.getD (init_perm (8 * k + j)) 0 else 0
    else 0)

def ip_maskr (k i : Nat) : Nat :=
  orAccum 8 (fun j =>
    if i &&& bits8.getD j 0 ≠ 0 then
      if init_perm (8 * k + j) < 32 then 0 else bits32.getD (init_perm (8 * k + j) - 32) 0
    else 0)

def fp_maskl (k i : Nat) : Nat :=
  orAccum 8 (fun j =>
    if i &&& bits8.getD j 0 ≠ 0 then
      if final_perm (8 * k + j) < 32 then bits32.getD (final_perm (8 * k + j)) 0 else 0
    else 0)

def fp_maskr (k i : Nat) : Nat :=
  orAccum 8 (fun j =>
    if i &&& bits8.getD j 0 ≠ 0 then
      if final_perm (8 * k + j) < 32 then 0 else bits32.getD (final_perm (8 * k + j) - 32) 0
    else 0)

def key_perm_maskl (k i : Nat) : Nat :=
  orAccum 7 (fun j =>
    if i &&& bits8.getD (j + 1) 0 ≠ 0 then
      if inv_key_perm (8 * k + j) = 255 then 0
      else if inv_key_perm (8 * k + j) < 28 then bits28 (inv_key_perm (8 * k + j)) else 0
    else 0)

def key_perm_maskr (k i : Nat) : Nat :=
  orAccum 7 (fun j =>
    if i &&& bits8.getD (j + 1) 0 ≠ 0 then
      if inv_key_perm (8 * k + j) = 255 then 0
      else if inv_key_perm (8 * k + j) < 28 then 0 else bits28 (inv_key_perm (8 * k + j) - 28)
    else 0)

def comp_maskl (k i : Nat) : Nat :=
  orAccum 7 (fun j =>
    if i &&& bits8.getD (j + 1) 0 ≠ 0 then
      if inv_comp_perm (7 * k + j) = 255 then 0
      else if inv_comp_perm (7 * k + j) < 24 then bits24 (inv_comp_perm (7 * k + j)) else 0
    else 0)

def comp_maskr (k i : Nat) : Nat :=
  orAccum 7 (fun j =>
    if i &&& bits8.getD (j + 1) 0 ≠ 0 then
      if inv_comp_perm (7 * k + j) = 255 then 0
      else if inv_comp_perm (7 * k + j) < 24 then 0 else bits24 (inv_comp_perm (7 * k + j) - 24)
    else 0)

/-- `psbox[b][i]`: inverted P-box folded into an OR-mask table. -/
def psbox (b i : Nat) : Nat :=
  orAccum 8 (fun j =>
    if i &&& bits8.getD j 0 ≠ 0 then bits32.getD (un_pbox (8 * b + j)) 0 else 0)

/-! ### Block codec -/

/-- `unpack_block`: 8 bytes to two big-endian 32-bit words
(`&&& 0xff` models the `uint8_t` element reads). -/
def unpack_block (block : List Nat) : Nat × Nat :=
  (((block.getD 0 0 &&& 0xff) <<< 24) ||| ((block.getD 1 0 &&& 0xff) <<< 16) |||
     ((block.getD 2 0 &&& 0xff) <<< 8) ||| (block.getD 3 0 &&& 0xff),
   ((block.getD 4 0 &&& 0xff) <<< 24) ||| ((block.getD 5 0 &&& 0xff) <<< 16) |||
     ((block.getD 6 0 &&& 0xff) <<< 8) ||| (block.getD 7 0 &&& 0xff))

/-- `pack_block`: two 32-bit words to 8 bytes
(`&&& 0xff` models the `uint8_t` element stores). -/
def pack_block (left right : Nat) : List Nat :=
  [(left >>> 24) &&& 0xff, (left >>> 16) &&& 0xff, (left >>> 8) &&& 0xff, left &&& 0xff,
   (right >>> 24) &&& 0xff, (right >>> 16) &&& 0xff, (right >>> 8) &&& 0xff, right &&& 0xff]

/-! ### Salt modulator -/

/-- `des_set_salt` loop body: at iteration `i`, `saltbit = 1 << i` and
`obit = 0x800000 >> i`. -/
def des_set_salt (salt : Nat) : Nat :=
  (List.range 24).foldl
    (fun saltbits i =>
      if salt &&& (1 <<< i) ≠ 0 then saltbits ||| (0x800000 >>> i) else saltbits)
    0

/-! ### Key scheduler -/

/-- Cumulative rotation amount: `shifts` after `round+1` additions of
`key_shifts[round]`. -/
def key_shift_sum (round : Nat) : Nat :=
  (List.range (round + 1)).foldl (fun s r => s + key_shifts.getD r 0) 0

/-- `des_set_key`: 8-byte key to the 16 `en_keysl` / `en_keysr` subkey
halves.  The `% 2^32` on the left-rotation models the `uint32_t`
truncation of `k0 << shifts`. -/
def des_set_key (key : List Nat) : List Nat × List Nat :=
  let rk := unpack_block key
  let rawkey0 := rk.1
  let rawkey1 := rk.2
  let k0 := key_perm_maskl 0 (rawkey0 >>> 25)
    ||| key_perm_maskl 1 ((rawkey0 >>> 17) &&& 0x7f)
    ||| key_perm_maskl 2 ((rawkey0 >>> 9) &&& 0x7f)
    ||| key_perm_maskl 3 ((rawkey0 >>> 1) &&& 0x7f)
    ||| key_perm_maskl 4 (rawkey1 >>> 25)
    ||| key_perm_maskl 5 ((rawkey1 >>> 17) &&& 0x7f)
    ||| key_perm_maskl 6 ((rawkey1 >>> 9) &&& 0x7f)
    ||| key_perm_maskl 7 ((rawkey1 >>> 1) &&& 0x7f)
  let k1 := key_perm_maskr 0 (rawkey0 >>> 25)
    ||| key_perm_maskr 1 ((rawkey0 >>> 17) &&& 0x7f)
    ||| key_perm_maskr 2 ((rawkey0 >>> 9) &&& 0x7f)
    ||| key_perm_maskr 3 ((rawkey0 >>> 1) &&& 0x7f)
    ||| key_perm_maskr 4 (rawkey1 >>> 25)
    ||| key_perm_maskr 5 ((rawkey1 >>> 17) &&& 0x7f)
    ||| key_perm_maskr 6 ((rawkey1 >>> 9) &&& 0x7f)
    ||| key_perm_maskr 7 ((rawkey1 >>> 1) &&& 0x7f)
  ((List.range 16).map (fun round =>
      let shifts := key_shift_sum round
      let t0 := ((k0 <<< shifts) % 4294967296) ||| (k0 >>> (28 - shifts))
      let t1 := ((k1 <<< shifts) % 4294967296) ||| (k1 >>> (28 - shifts))
      comp_maskl 0 ((t0 >>> 21) &&& 0x7f)
        ||| comp_maskl 1 ((t0 >>> 14) &&& 0x7f)
        ||| comp_maskl 2 ((t0 >>> 7) &&& 0x7f)
        ||| comp_maskl 3 (t0 &&& 0x7f)
        ||| comp_maskl 4 ((t1 >>> 21) &&& 0x7f)
        ||| comp_maskl 5 ((t1 >>> 14) &&& 0x7f)
        ||| comp_maskl 6 ((t1 >>> 7) &&& 0x7f)
        ||| comp_maskl 7 (t1 &&& 0x7f)),
   (List.range 16).map (fun round =>
      let shifts := key_shift_sum round
      let t0 := ((k0 <<< shifts) % 4294967296) ||| (k0 >>> (28 - shifts))
      let t1 := ((k1 <<< shifts) % 4294967296) ||| (k1 >>> (28 - shifts))
      comp_maskr 0 ((t0 >>> 21) &&& 0x7f)
        ||| comp_maskr 1 ((t0 >>> 14) &&& 0x7f)
        ||| comp_maskr 2 ((t0 >>> 7) &&& 0x7f)
        ||| comp_maskr 3 (t0 &&& 0x7f)
        ||| comp_maskr 4 ((t1 >>> 21) &&& 0x7f)
        ||| comp_maskr 5 ((t1 >>> 14) &&& 0x7f)
        ||| comp_maskr 6 ((t1 >>> 7) &&& 0x7f)
        ||| comp_maskr 7 (t1 &&& 0x7f)))

/-! ### Round engine (`do_des`) -/

/-- Mirrors `des_ctx_t`: `saltbits` plus the 16 subkey halves. -/
structure des_ctx where
  saltbits : Nat
  en_keysl : List Nat
  en_keysr : List Nat
  deriving DecidableEq

/-- One round's E-box expansion, salt perturbation and subkey XOR: the two
24-bit pseudo-halves `r48l`, `r48r` right before the S-box lookups. -/
def des_round_r48 (saltbits kl kr r : Nat) : Nat × Nat :=
  let r48l := ((r &&& 0x00000001) <<< 23)
    ||| ((r &&& 0xf8000000) >>> 9)
    ||| ((r &&& 0x1f800000) >>> 11)
    ||| ((r &&& 0x01f80000) >>> 13)
    ||| ((r &&& 0x001f8000) >>> 15)
  let r48r := ((r &&& 0x0001f800) <<< 7)
    ||| ((r &&& 0x00001f80) <<< 5)
    ||| ((r &&& 0x000001f8) <<< 3)
    ||| ((r &&& 0x0000001f) <<< 1)
    ||| ((r &&& 0x80000000) >>> 31)
  let f := (r48l ^^^ r48r) &&& saltbits
  (r48l ^^^ f ^^^ kl, r48r ^^^ f ^^^ kr)

/-- One Feistel round of the inner `while (round--)` loop. -/
def des_round (saltbits kl kr : Nat) (lr : Nat × Nat) : Nat × Nat :=
  let r48 := des_round_r48 saltbits kl kr lr.2
  let f := psbox 0 (m_sbox 0 (r48.1 >>> 12))
    ||| psbox 1 (m_sbox 1 (r48.1 &&& 0xfff))
    ||| psbox 2 (m_sbox 2 (r48.2 >>> 12))
    ||| psbox 3 (m_sbox 3 (r48.2 &&& 0xfff))
  (lr.2, f ^^^ lr.1)

/-- One iteration of the outer `while (count--)` loop: 16 rounds walking
the subkey arrays in order, then the compensating `r = l; l = f` swap. -/
def des_pass (saltbits : Nat) (kl kr : List Nat) (lr : Nat × Nat) : Nat × Nat :=
  let lr := (kl.zip kr).foldl (fun lr k => des_round saltbits k.1 k.2 lr) lr
  (lr.2, lr.1)

/-- Initial permutation of `do_des`: `(lt, rt)` to `(l, r)`. -/
def ip_perm (ltrt : Nat × Nat) : Nat × Nat :=
  (ip_maskl 0 (ltrt.1 >>> 24) ||| ip_maskl 1 ((ltrt.1 >>> 16) &&& 0xff)
     ||| ip_maskl 2 ((ltrt.1 >>> 8) &&& 0xff) ||| ip_maskl 3 (ltrt.1 &&& 0xff)
     ||| ip_maskl 4 (ltrt.2 >>> 24) ||| ip_maskl 5 ((ltrt.2 >>> 16) &&& 0xff)
     ||| ip_maskl 6 ((ltrt.2 >>> 8) &&& 0xff) ||| ip_maskl 7 (ltrt.2 &&& 0xff),
   ip_maskr 0 (ltrt.1 >>> 24) ||| ip_maskr 1 ((ltrt.1 >>> 16) &&& 0xff)
     ||| ip_maskr 2 ((ltrt.1 >>> 8) &&& 0xff) ||| ip_maskr 3 (ltrt.1 &&& 0xff)
     ||| ip_maskr 4 (ltrt.2 >>> 24) ||| ip_maskr 5 ((ltrt.2 >>> 16) &&& 0xff)
     ||| ip_maskr 6 ((ltrt.2 >>> 8) &&& 0xff) ||| ip_maskr 7 (ltrt.2 &&& 0xff))

/-- Final permutation of `do_des`: `(l, r)` to `(lt, rt)`. -/
def fp_perm (lr : Nat × Nat) : Nat × Nat :=
  (fp_maskl 0 (lr.1 >>> 24) ||| fp_maskl 1 ((lr.1 >>> 16) &&& 0xff)
     ||| fp_maskl 2 ((lr.1 >>> 8) &&& 0xff) ||| fp_maskl 3 (lr.1 &&& 0xff)
     ||| fp_maskl 4 (lr.2 >>> 24) ||| fp_maskl 5 ((lr.2 >>> 16) &&& 0xff)
     ||| fp_maskl 6 ((lr.2 >>> 8) &&& 0xff) ||| fp_maskl 7 (lr.2 &&& 0xff),
   fp_maskr 0 (lr.1 >>> 24) ||| fp_maskr 1 ((lr.1 >>> 16) &&& 0xff)
     ||| fp_maskr 2 ((lr.1 >>> 8) &&& 0xff) ||| fp_maskr 3 (lr.1 &&& 0xff)
     ||| fp_maskr 4 (lr.2 >>> 24) ||| fp_maskr 5 ((lr.2 >>> 16) &&& 0xff)
     ||| fp_maskr 6 ((lr.2 >>> 8) &&& 0xff) ||| fp_maskr 7 (lr.2 &&& 0xff))

/-- `do_des`.  Returns `(rc, output buffer after the call)`: the error
paths (`count = 0`, `count < 0`) return before any store through
`output`, so they return the buffer unchanged. -/
def do_des (ctx : des_ctx) (input output : List Nat) (count : Int) : Nat × List Nat :=
  if count = 0 then (1, output)
  else if 0 < count then
    let lr0 := ip_perm (unpack_block input)
    let lr := (fun lr => des_pass ctx.saltbits ctx.en_keysl ctx.en_keysr lr)^[count.toNat] lr0
    let ltrt := fp_perm lr
    (0, pack_block ltrt.1 ltrt.2)
  else (1, output)

/-! ### Public entry point -/

/-- The context built by `des_set_key` followed by `des_set_salt`. -/
def mk_ctx (key : List Nat) (salt : Nat) : des_ctx :=
  ⟨des_set_salt salt, (des_set_key key).1, (des_set_key key).2⟩

/-- `des_cipher_block`: result status and output buffer after the call. -/
def des_cipher_block (key input output : List Nat) (salt : Nat) (count : Int) :
    Nat × List Nat :=
  do_des (mk_ctx key salt) input output count

/-- The all-zero context produced by the final `memset(&ctx, 0, sizeof(ctx))`. -/
def zero_ctx : des_ctx := ⟨0, List.replicate 16 0, List.replicate 16 0⟩

/-- `des_cipher_block` with the transient context made observable: the
second component is the `des_ctx_t` as it stands when the function
returns (i.e. after the unconditional `memset`). -/
def des_cipher_block_trace (key input output : List Nat) (salt : Nat) (count : Int) :
    (Nat × List Nat) × des_ctx :=
  let ctx := mk_ctx key salt
  let rc := do_des ctx input output count
  let ctx := zero_ctx
  (rc, ctx)

/-! ### Instrumented round engine (for the 16 × count round-budget claim):
`do_des` with a counter incremented once per execution of the inner round
body, otherwise identical. -/

def des_pass_counted (saltbits : Nat) (kl kr : List Nat) (t : (Nat × Nat) × Nat) :
    (Nat × Nat) × Nat :=
  let u := (kl.zip kr).foldl (fun u k => (des_round saltbits k.1 k.2 u.1, u.2 + 1)) t
  ((u.1.2, u.1.1), u.2)

def do_des_counted (ctx : des_ctx) (input output : List Nat) (count : Int) :
    (Nat × List Nat) × Nat :=
  if count = 0 then ((1, output), 0)
  else if 0 < count then
    let lr0 := ip_perm (unpack_block input)
    let t :=
      (fun t => des_pass_counted ctx.saltbits ctx.en_keysl ctx.en_keysr t)^[count.toNat] (lr0, 0)
    let ltrt := fp_perm t.1
    ((0, pack_block ltrt.1 ltrt.2), t.2)
  else ((1, output), 0)

/-! ### The `des_init_tables` state machine (for the idempotence claim):
the process-wide derived tables together with the `des_initialised`
one-time-init flag.  The generated table values do not depend on the
prior state (every derived entry is overwritten), so the "work" branch
installs the table functions defined above and raises the flag. -/

structure des_tables_state where
  des_initialised : Bool
  u_sbox : Nat → Nat → Nat
  m_sbox : Nat → Nat → Nat
  init_perm : Nat → Nat
  final_perm : Nat → Nat
  inv_key_perm : Nat → Nat
  inv_comp_perm : Nat → Nat
  un_pbox : Nat → Nat
  ip_maskl : Nat → Nat → Nat
  ip_maskr : Nat → Nat → Nat
  fp_maskl : Nat → Nat → Nat
  fp_maskr : Nat → Nat → Nat
  key_perm_maskl : Nat → Nat → Nat
  key_perm_maskr : Nat → Nat → Nat
  comp_maskl : Nat → Nat → Nat
  comp_maskr : Nat → Nat → Nat
  psbox : Nat → Nat → Nat

def des_init_tables (s : des_tables_state) : des_tables_state :=
  if s.des_initialised then s
  else
    ⟨true, u_sbox, m_sbox, init_perm, final_perm, inv_key_perm, inv_comp_perm, un_pbox,
      ip_maskl, ip_maskr, fp_maskl, fp_maskr, key_perm_maskl, key_perm_maskr,
      comp_maskl, comp_maskr, psbox⟩

end Des

/-! ## Theorems -/

namespace Des

set_option maxRecDepth 1000000

/-! ### Arithmetic helper lemmas about the codec and key slices -/

theorem and_255 (x : Nat) : x &&& 0xff = x % 256 := by
  have h : (0xff : Nat) = 2 ^ 8 - 1 := by norm_num
  rw [h, Nat.and_pow_two_sub_one_eq_mod]

theorem and_127 (x : Nat) : x &&& 0x7f = x % 128 := by
  have h : (0x7f : Nat) = 2 ^ 7 - 1 := by norm_num
  rw [h, Nat.and_pow_two_sub_one_eq_mod]

theorem or_shiftLeft_eq_add (x y n : Nat) (h : y < 2 ^ n) :
    (x <<< n) ||| y = x * 2 ^ n + y := by
  rw [Nat.shiftLeft_eq, Nat.mul_comm x (2 ^ n), ← Nat.mul_add_lt_is_or h x, Nat.mul_comm]

theorem assemble4 (a b c d : Nat) :
    ((a &&& 0xff) <<< 24) ||| ((b &&& 0xff) <<< 16) ||| ((c &&& 0xff) <<< 8) ||| (d &&& 0xff)
      = a % 256 * 2 ^ 24 + b % 256 * 2 ^ 16 + c % 256 * 2 ^ 8 + d % 256 := by
  rw [and_255, and_255, and_255, and_255, Nat.or_assoc, Nat.or_assoc,
      or_shiftLeft_eq_add (c % 256) (d % 256) 8 (by omega),
      or_shiftLeft_eq_add (b % 256) (c % 256 * 2 ^ 8 + d % 256) 16 (by omega),
      or_shiftLeft_eq_add (a % 256) (b % 256 * 2 ^ 16 + (c % 256 * 2 ^ 8 + d % 256)) 24
        (by omega)]
  omega

/-- Arithmetic characterisation of `unpack_block`: each word is the
big-endian value of its four bytes. -/
theorem unpack_block_eq (block : List Nat) :
    unpack_block block =
      (block.getD 0 0 % 256 * 2 ^ 24 + block.getD 1 0 % 256 * 2 ^ 16
         + block.getD 2 0 % 256 * 2 ^ 8 + block.getD 3 0 % 256,
       block.getD 4 0 % 256 * 2 ^ 24 + block.getD 5 0 % 256 * 2 ^ 16
         + block.getD 6 0 % 256 * 2 ^ 8 + block.getD 7 0 % 256) := by
  unfold unpack_block
  rw [assemble4, assemble4]

/-- Bits 25–31 of a big-endian word are the top seven bits of byte 0. -/
theorem slice25 (a b c d : Nat) :
    (a % 256 * 2 ^ 24 + b % 256 * 2 ^ 16 + c % 256 * 2 ^ 8 + d % 256) / 2 ^ 25 =
      a % 256 / 2 := by omega

/-- Bits 17–23 of a big-endian word are the top seven bits of byte 1. -/
theorem slice17 (a b c d : Nat) :
    (a % 256 * 2 ^ 24 + b % 256 * 2 ^ 16 + c % 256 * 2 ^ 8 + d % 256) / 2 ^ 17 % 128 =
      b % 256 / 2 := by omega

/-- Bits 9–15 of a big-endian word are the top seven bits of byte 2. -/
theorem slice9 (a b c d : Nat) :
    (a % 256 * 2 ^ 24 + b % 256 * 2 ^ 16 + c % 256 * 2 ^ 8 + d % 256) / 2 ^ 9 % 128 =
      c % 256 / 2 := by omega

/-- Bits 1–7 of a big-endian word are the top seven bits of byte 3. -/
theorem slice1 (a b c d : Nat) :
    (a % 256 * 2 ^ 24 + b % 256 * 2 ^ 16 + c % 256 * 2 ^ 8 + d % 256) / 2 ^ 1 % 128 =
      d % 256 / 2 := by omega

/-! ### Claim theorems -/

/-- **C1**: for key = eight zero bytes, input = eight zero bytes, salt = 0
and count = 1, `des_cipher_block` succeeds (status 0) and writes exactly
the bytes `8C A6 4D E9 C1 B1 23 A7` — the standard DES
zero-key/zero-plaintext test vector — to the output buffer, whatever the
buffer held before. -/
theorem claim1_zero_test_vector : ∀ output : List Nat,
    des_cipher_block (List.replicate 8 0) (List.replicate 8 0) output 0 1 =
      (0, [0x8c, 0xa6, 0x4d, 0xe9, 0xc1, 0xb1, 0x23, 0xa7]) := by
  intro output
  rfl

/-- **C2**: `des_cipher_block` errors (status 1) iff `count ≤ 0`; on error
the output buffer is returned untouched, and for every `count ≥ 1` it
succeeds (status 0). -/
theorem claim2_error_contract :
    ∀ (key input output : List Nat) (salt : Nat) (count : Int),
      ((des_cipher_block key input output salt count).1 = 1 ↔ count ≤ 0)
      ∧ (count ≤ 0 → (des_cipher_block key input output salt count).2 = output)
      ∧ (1 ≤ count → (des_cipher_block key input output salt count).1 = 0) := by
  intro key input output salt count
  unfold des_cipher_block do_des
  by_cases h0 : count = 0
  · subst h0
    simp
  · by_cases hpos : 0 < count
    · rw [if_neg h0, if_pos hpos]
      refine ⟨by simp; omega, fun h => absurd h (by omega), fun _ => rfl⟩
    · rw [if_neg h0, if_neg hpos]
      exact ⟨by simp; omega, fun _ => rfl, fun h => absurd h (by omega)⟩

/-- Witness for C2 at concrete inputs: count = -1 errors with the sentinel
buffer untouched, and count = 1 succeeds. -/
theorem claim2_error_contract_witness :
    (des_cipher_block (List.replicate 8 0) (List.replicate 8 0) [9, 9, 9] 0 (-1)).2 = [9, 9, 9]
    ∧ (des_cipher_block (List.replicate 8 0) (List.replicate 8 0) [9, 9, 9] 0 1).1 = 0 :=
  ⟨(claim2_error_contract (List.replicate 8 0) (List.replicate 8 0) [9, 9, 9] 0 (-1)).2.1
      (by decide),
   (claim2_error_contract (List.replicate 8 0) (List.replicate 8 0) [9, 9, 9] 0 1).2.2
      (by decide)⟩

/-- **C6**: `des_init_tables` is idempotent — running it again after it has
completed leaves the whole derived-table state (every table and the flag)
identical. -/
theorem claim6_init_tables_idempotent :
    ∀ s : des_tables_state, des_init_tables (des_init_tables s) = des_init_tables s := by
  intro s
  unfold des_init_tables
  by_cases h : s.des_initialised <;> simp [h]

/-- **C8**: on every return from `des_cipher_block` — error and success
paths alike — the transient context (saltbits and all 16 subkey-half
pairs) has been zeroized, and the traced run returns the same result as
`des_cipher_block`. -/
theorem claim8_context_zeroized :
    ∀ (key input output : List Nat) (salt : Nat) (count : Int),
      (des_cipher_block_trace key input output salt count).2 = zero_ctx
      ∧ (des_cipher_block_trace key input output salt count).1 =
          des_cipher_block key input output salt count := by
  intro key input output salt count
  exact ⟨rfl, rfl⟩

/-- **C3, counterexample**: at the representative triple
key = `01 23 45 67 89 AB CD EF` (not a weak key), salt = 5,
input = `01 02 ... 08`, the count = 2 encryption is **equal** to calling
`des_cipher_block` twice in a row with count = 1 — refuting the claim's
asserted inequality.  (`fp_perm` is the inverse of `ip_perm`, so the
IP/FP applications between chained calls cancel.) -/
theorem claim3_count2_equals_chained_cex :
    des_cipher_block [1, 35, 69, 103, 137, 171, 205, 239] [1, 2, 3, 4, 5, 6, 7, 8]
        (List.replicate 8 0) 5 2
      = des_cipher_block [1, 35, 69, 103, 137, 171, 205, 239]
          (des_cipher_block [1, 35, 69, 103, 137, 171, 205, 239] [1, 2, 3, 4, 5, 6, 7, 8]
              (List.replicate 8 0) 5 1).2
          (List.replicate 8 0) 5 1 := by
  decide

/-- **C3, amended**: for count = 2, `des_cipher_block` equals applying the
initial permutation once, running the 16-round Feistel network twice in
sequence with no permutation between the repetitions, then the final
permutation once; and (contrary to the original claim) for representative
key/salt/input triples this **is** equal to calling `des_cipher_block`
twice in a row with count = 1, because the final permutation inverts the
initial permutation, so the FP/IP pair between the two chained calls
cancels. -/
theorem claim3_count_chaining :
    (∀ (key input output : List Nat) (salt : Nat),
      des_cipher_block key input output salt 2 =
        (0,
          pack_block
            (fp_perm (des_pass (des_set_salt salt) (des_set_key key).1 (des_set_key key).2
              (des_pass (des_set_salt salt) (des_set_key key).1 (des_set_key key).2
                (ip_perm (unpack_block input))))).1
            (fp_perm (des_pass (des_set_salt salt) (des_set_key key).1 (des_set_key key).2
              (des_pass (des_set_salt salt) (des_set_key key).1 (des_set_key key).2
                (ip_perm (unpack_block input))))).2))
    ∧ des_cipher_block [19, 52, 87, 121, 155, 188, 223, 241] [72, 101, 108, 108, 111, 33, 33, 33]
          (List.replicate 8 0) 0xabcdef 2
        = des_cipher_block [19, 52, 87, 121, 155, 188, 223, 241]
            (des_cipher_block [19, 52, 87, 121, 155, 188, 223, 241]
                [72, 101, 108, 108, 111, 33, 33, 33] (List.replicate 8 0) 0xabcdef 1).2
            (List.replicate 8 0) 0xabcdef 1 := by
  exact ⟨fun key input output salt => rfl, by decide⟩

/-- **C5**: two 8-byte keys that agree on the high 7 bits of every byte
(i.e. differ at most in each byte's least-significant parity bit) yield
the same key schedule, and hence the same `des_cipher_block` result for
every input, salt and count. -/
theorem claim5_parity_bits_ignored :
    ∀ key1 key2 : List Nat,
      (∀ j, j < 8 → key1.getD j 0 % 256 / 2 = key2.getD j 0 % 256 / 2) →
      des_set_key key1 = des_set_key key2
      ∧ ∀ (input output : List Nat) (salt : Nat) (count : Int),
          des_cipher_block key1 input output salt count =
            des_cipher_block key2 input output salt count := by
  intro key1 key2 h
  have h0 := h 0 (by omega)
  have h1 := h 1 (by omega)
  have h2 := h 2 (by omega)
  have h3 := h 3 (by omega)
  have h4 := h 4 (by omega)
  have h5 := h 5 (by omega)
  have h6 := h 6 (by omega)
  have h7 := h 7 (by omega)
  have e0 : (unpack_block key1).1 >>> 25 = (unpack_block key2).1 >>> 25 := by
    rw [unpack_block_eq, unpack_block_eq]
    simp only [Nat.shiftRight_eq_div_pow]
    rw [slice25, slice25, h0]
  have e1 : ((unpack_block key1).1 >>> 17) &&& 0x7f =
      ((unpack_block key2).1 >>> 17) &&& 0x7f := by
    rw [unpack_block_eq, unpack_block_eq]
    simp only [Nat.shiftRight_eq_div_pow, and_127]
    rw [slice17, slice17, h1]
  have e2 : ((unpack_block key1).1 >>> 9) &&& 0x7f =
      ((unpack_block key2).1 >>> 9) &&& 0x7f := by
    rw [unpack_block_eq, unpack_block_eq]
    simp only [Nat.shiftRight_eq_div_pow, and_127]
    rw [slice9, slice9, h2]
  have e3 : ((unpack_block key1).1 >>> 1) &&& 0x7f =
      ((unpack_block key2).1 >>> 1) &&& 0x7f := by
    rw [unpack_block_eq, unpack_block_eq]
    simp only [Nat.shiftRight_eq_div_pow, and_127]
    rw [slice1, slice1, h3]
  have e4 : (unpack_block key1).2 >>> 25 = (unpack_block key2).2 >>> 25 := by
    rw [unpack_block_eq, unpack_block_eq]
    simp only [Nat.shiftRight_eq_div_pow]
    rw [slice25, slice25, h4]
  have e5 : ((unpack_block key1).2 >>> 17) &&& 0x7f =
      ((unpack_block key2).2 >>> 17) &&& 0x7f := by
    rw [unpack_block_eq, unpack_block_eq]
    simp only [Nat.shiftRight_eq_div_pow, and_127]
    rw [slice17, slice17, h5]
  have e6 : ((unpack_block key1).2 >>> 9) &&& 0x7f =
      ((unpack_block key2).2 >>> 9) &&& 0x7f := by
    rw [unpack_block_eq, unpack_block_eq]
    simp only [Nat.shiftRight_eq_div_pow, and_127]
    rw [slice9, slice9, h6]
  have e7 : ((unpack_block key1).2 >>> 1) &&& 0x7f =
      ((unpack_block key2).2 >>> 1) &&& 0x7f := by
    rw [unpack_block_eq, unpack_block_eq]
    simp only [Nat.shiftRight_eq_div_pow, and_127]
    rw [slice1, slice1, h7]
  have hks : des_set_key key1 = des_set_key key2 := by
    simp only [des_set_key]
    rw [e0, e1, e2, e3, e4, e5, e6, e7]
  refine ⟨hks, fun input output salt count => ?_⟩
  unfold des_cipher_block mk_ctx
  rw [hks]

/-- Witness for C5 at concrete keys differing exactly in every parity bit. -/
theorem claim5_parity_bits_ignored_witness :
    des_set_key [1, 35, 69, 103, 137, 171, 205, 239] =
        des_set_key [0, 34, 68, 102, 136, 170, 204, 238]
    ∧ des_cipher_block [1, 35, 69, 103, 137, 171, 205, 239] [1, 2, 3, 4, 5, 6, 7, 8]
          (List.replicate 8 0) 5 1
        = des_cipher_block [0, 34, 68, 102, 136, 170, 204, 238] [1, 2, 3, 4, 5, 6, 7, 8]
            (List.replicate 8 0) 5 1 :=
  ⟨(claim5_parity_bits_ignored [1, 35, 69, 103, 137, 171, 205, 239]
      [0, 34, 68, 102, 136, 170, 204, 238] (by decide)).1,
   (claim5_parity_bits_ignored [1, 35, 69, 103, 137, 171, 205, 239]
      [0, 34, 68, 102, 136, 170, 204, 238] (by decide)).2
     [1, 2, 3, 4, 5, 6, 7, 8] (List.replicate 8 0) 5 1⟩

/-- **C9**: the codec decodes strictly big-endian (word0 from bytes 0–3,
word1 from bytes 4–7, each `b0·2^24 + b1·2^16 + b2·2^8 + b3`),
`pack_block` inverts `unpack_block` on every 8-byte buffer, and
`unpack_block` inverts `pack_block` on every pair of 32-bit words. -/
theorem claim9_codec_roundtrip :
    (∀ b0 b1 b2 b3 b4 b5 b6 b7 : Nat,
      b0 < 256 → b1 < 256 → b2 < 256 → b3 < 256 →
      b4 < 256 → b5 < 256 → b6 < 256 → b7 < 256 →
      (unpack_block [b0, b1, b2, b3, b4, b5, b6, b7]).1 =
          b0 * 2 ^ 24 + b1 * 2 ^ 16 + b2 * 2 ^ 8 + b3
      ∧ (unpack_block [b0, b1, b2, b3, b4, b5, b6, b7]).2 =
          b4 * 2 ^ 24 + b5 * 2 ^ 16 + b6 * 2 ^ 8 + b7
      ∧ pack_block (unpack_block [b0, b1, b2, b3, b4, b5, b6, b7]).1
            (unpack_block [b0, b1, b2, b3, b4, b5, b6, b7]).2
          = [b0, b1, b2, b3, b4, b5, b6, b7])
    ∧ (∀ w0 w1 : Nat, w0 < 2 ^ 32 → w1 < 2 ^ 32 →
        unpack_block (pack_block w0 w1) = (w0, w1)) := by
  constructor
  · intro b0 b1 b2 b3 b4 b5 b6 b7 h0 h1 h2 h3 h4 h5 h6 h7
    rw [unpack_block_eq]
    simp only [List.getD_cons_zero, List.getD_cons_succ]
    refine ⟨by omega, by omega, ?_⟩
    simp only [pack_block, Nat.shiftRight_eq_div_pow, and_255, List.cons.injEq, and_true]
    omega
  · intro w0 w1 h0 h1
    rw [unpack_block_eq]
    simp only [pack_block, List.getD_cons_zero, List.getD_cons_succ,
      Nat.shiftRight_eq_div_pow, and_255, Prod.mk.injEq]
    omega

/-- Witness for C9 at a concrete buffer and a concrete word pair. -/
theorem claim9_codec_roundtrip_witness :
    pack_block (unpack_block [1, 2, 3, 4, 250, 251, 252, 253]).1
        (unpack_block [1, 2, 3, 4, 250, 251, 252, 253]).2 = [1, 2, 3, 4, 250, 251, 252, 253]
    ∧ unpack_block (pack_block 0x12345678 0x9abcdef0) = (0x12345678, 0x9abcdef0) :=
  ⟨(claim9_codec_roundtrip.1 1 2 3 4 250 251 252 253 (by decide) (by decide) (by decide)
      (by decide) (by decide) (by decide) (by decide) (by decide)).2.2,
   claim9_codec_roundtrip.2 0x12345678 0x9abcdef0 (by decide) (by decide)⟩

/-! ### Helper lemmas for the round-budget instrumentation -/

theorem foldl_counted (sb : Nat) (l : List (Nat × Nat)) : ∀ (s : Nat × Nat) (n : Nat),
    l.foldl (fun u k => (des_round sb k.1 k.2 u.1, u.2 + 1)) (s, n)
      = (l.foldl (fun lr k => des_round sb k.1 k.2 lr) s, n + l.length) := by
  induction l with
  | nil => intro s n; simp
  | cons hd tl ih =>
    intro s n
    simp only [List.foldl_cons, ih, List.length_cons]
    simp only [Prod.mk.injEq, true_and]
    omega

theorem des_pass_counted_eq (sb : Nat) (kl kr : List Nat) (t : (Nat × Nat) × Nat) :
    des_pass_counted sb kl kr t = (des_pass sb kl kr t.1, t.2 + (kl.zip kr).length) := by
  obtain ⟨lr, n⟩ := t
  unfold des_pass_counted des_pass
  rw [foldl_counted]

theorem iterate_pass_counted (sb : Nat) (kl kr : List Nat)
    (h : (kl.zip kr).length = 16) :
    ∀ (m : Nat) (lr : Nat × Nat) (n : Nat),
      (fun t => des_pass_counted sb kl kr t)^[m] (lr, n)
        = ((fun lr => des_pass sb kl kr lr)^[m] lr, n + 16 * m) := by
  intro m
  induction m with
  | zero => intro lr n; simp
  | succ m ih =>
    intro lr n
    rw [Function.iterate_succ_apply, Function.iterate_succ_apply]
    have step : des_pass_counted sb kl kr (lr, n) =
        (des_pass sb kl kr lr, n + 16) := by
      rw [des_pass_counted_eq]
      simp [h]
    rw [step, ih]
    simp only [Prod.mk.injEq, true_and]
    omega

theorem des_set_key_lengths (key : List Nat) :
    ((des_set_key key).1.zip (des_set_key key).2).length = 16 := by
  simp [des_set_key, List.length_zip]

/-- **C10**: for every count ≥ 1 the round engine is a total, bounded
computation: the instrumented engine (identical to `do_des` apart from a
counter incremented once per round-body execution) performs exactly
16 × count Feistel rounds before the final permutation, and returns the
same result as `do_des`. -/
theorem claim10_round_budget :
    ∀ (key input output : List Nat) (salt : Nat) (count : Int), 1 ≤ count →
      (do_des_counted (mk_ctx key salt) input output count).2 = 16 * count.toNat
      ∧ (do_des_counted (mk_ctx key salt) input output count).1 =
          do_des (mk_ctx key salt) input output count := by
  intro key input output salt count hc
  unfold do_des_counted do_des
  rw [if_neg (by omega), if_pos (by omega), if_neg (by omega), if_pos (by omega)]
  simp only [mk_ctx]
  rw [iterate_pass_counted _ _ _ (des_set_key_lengths key) count.toNat _ 0]
  exact ⟨by omega, rfl⟩

/-- Witness for C10 at count = 3: exactly 48 rounds are executed. -/
theorem claim10_round_budget_witness :
    (do_des_counted (mk_ctx (List.replicate 8 0) 0) (List.replicate 8 0)
        (List.replicate 8 0) 3).2 = 48
    ∧ (do_des_counted (mk_ctx (List.replicate 8 0) 0) (List.replicate 8 0)
          (List.replicate 8 0) 3).1 =
        do_des (mk_ctx (List.replicate 8 0) 0) (List.replicate 8 0) (List.replicate 8 0) 3 :=
  claim10_round_budget (List.replicate 8 0) (List.replicate 8 0) (List.replicate 8 0) 0 3
    (by decide)

/-! ### Helper lemmas for the salt modulator and bounds -/

theorem bool_eq_of_iff {a b : Bool} (h : a = true ↔ b = true) : a = b := by
  cases a <;> cases b <;> simp_all

theorem foldl_preserve {α β : Type} (p : β → Prop) (step : β → α → β) :
    ∀ (l : List α) (init : β), p init → (∀ b a, a ∈ l → p b → p (step b a)) →
      p (l.foldl step init) := by
  intro l
  induction l with
  | nil => intro init h _; exact h
  | cons hd tl ih =>
    intro init h hstep
    exact ih (step init hd) (hstep init hd (by simp) h)
      (fun b a ha hb => hstep b a (by simp [ha]) hb)

theorem des_set_salt_lt (salt : Nat) : des_set_salt salt < 2 ^ 24 := by
  unfold des_set_salt
  apply foldl_preserve (fun x => x < 2 ^ 24)
  · decide
  · intro b i _ hb
    dsimp only
    split
    · apply Nat.or_lt_two_pow hb
      have h1 : (0x800000 : Nat) >>> i ≤ 0x800000 := by
        rw [Nat.shiftRight_eq_div_pow]
        exact Nat.div_le_self _ _
      omega
    · exact hb

theorem and_one_shiftLeft_ne_zero (salt i : Nat) :
    salt &&& (1 <<< i) ≠ 0 ↔ salt.testBit i = true := by
  rw [Nat.one_shiftLeft, Nat.and_two_pow]
  cases h : salt.testBit i <;> simp [h, (Nat.two_pow_pos i).ne']

/-- Bits of the partial `des_set_salt` accumulation: after `n ≤ 24` loop
iterations, output bit `k` is set iff it was set in the accumulator or
`k < 24`, input bit `23 - k` has been visited, and that input bit is set. -/
theorem salt_fold_testBit (salt : Nat) :
    ∀ n : Nat, n ≤ 24 → ∀ acc k : Nat,
      (((List.range n).foldl
          (fun saltbits i =>
            if salt &&& (1 <<< i) ≠ 0 then saltbits ||| (0x800000 >>> i) else saltbits)
          acc).testBit k = true
        ↔ (acc.testBit k = true ∨ (k < 24 ∧ 23 - k < n ∧ salt.testBit (23 - k) = true))) := by
  intro n
  induction n with
  | zero => intro _ acc k; simp
  | succ n ih =>
    intro hn acc k
    rw [List.range_succ, List.foldl_append, List.foldl_cons, List.foldl_nil]
    have hfold := ih (by omega) acc k
    have hbit : (0x800000 : Nat) >>> n = 2 ^ (23 - n) := by
      rw [Nat.shiftRight_eq_div_pow]
      have h23 : (0x800000 : Nat) = 2 ^ 23 := by norm_num
      rw [h23, Nat.pow_div (by omega) (by omega)]
    by_cases hc : salt &&& (1 <<< n) ≠ 0
    · rw [if_pos hc, Nat.testBit_or, hbit]
      have hsn : salt.testBit n = true := (and_one_shiftLeft_ne_zero salt n).mp hc
      rw [Bool.or_eq_true, hfold, Nat.testBit_two_pow]
      constructor
      · rintro ((h | ⟨h1, h2, h3⟩) | h)
        · exact Or.inl h
        · exact Or.inr ⟨h1, by omega, h3⟩
        · have hk : 23 - n = k := of_decide_eq_true h
          have hkn : k < 24 := by omega
          have he : 23 - k = n := by omega
          exact Or.inr ⟨hkn, by omega, by rw [he]; exact hsn⟩
      · rintro (h | ⟨h1, h2, h3⟩)
        · exact Or.inl (Or.inl h)
        · by_cases hlt : 23 - k < n
          · exact Or.inl (Or.inr ⟨h1, hlt, h3⟩)
          · have he : 23 - k = n := by omega
            exact Or.inr (decide_eq_true (by omega))
    · rw [if_neg hc, hfold]
      have hsn : salt.testBit n = false := by
        cases h : salt.testBit n
        · rfl
        · exact absurd ((and_one_shiftLeft_ne_zero salt n).mpr h) hc
      constructor
      · rintro (h | ⟨h1, h2, h3⟩)
        · exact Or.inl h
        · exact Or.inr ⟨h1, by omega, h3⟩
      · rintro (h | ⟨h1, h2, h3⟩)
        · exact Or.inl h
        · by_cases hlt : 23 - k < n
          · exact Or.inr ⟨h1, hlt, h3⟩
          · have he : 23 - k = n := by omega
            rw [he] at h3
            rw [h3] at hsn
            cases hsn

/-- Bit characterisation of the finished salt mask. -/
theorem des_set_salt_testBit (salt k : Nat) :
    ((des_set_salt salt).testBit k = true ↔ (k < 24 ∧ salt.testBit (23 - k) = true)) := by
  unfold des_set_salt
  rw [salt_fold_testBit salt 24 (le_refl 24) 0 k]
  simp only [Nat.zero_testBit, Bool.false_eq_true, false_or]
  constructor
  · rintro ⟨h1, _, h3⟩
    exact ⟨h1, h3⟩
  · rintro ⟨h1, h3⟩
    exact ⟨h1, by omega, h3⟩

/-- **C4**: `des_set_salt` produces a 24-bit mask that bit-reverses the
low 24 bits of the salt — input bit `i` (for every `i < 24`) lands at
output bit `23 - i` — and salt bits at position 24 and above have no
effect: the mask equals the mask of `salt &&& 0xFFFFFF`. -/
theorem claim4_salt_mask :
    ∀ salt : Nat,
      des_set_salt salt < 2 ^ 24
      ∧ (∀ i, i < 24 → (des_set_salt salt).testBit (23 - i) = salt.testBit i)
      ∧ des_set_salt salt = des_set_salt (salt &&& 0xffffff) := by
  intro salt
  refine ⟨des_set_salt_lt salt, ?_, ?_⟩
  · intro i hi
    apply bool_eq_of_iff
    rw [des_set_salt_testBit]
    have e : 23 - (23 - i) = i := by omega
    rw [e]
    constructor
    · rintro ⟨_, h⟩
      exact h
    · intro h
      exact ⟨by omega, h⟩
  · apply Nat.eq_of_testBit_eq
    intro k
    apply bool_eq_of_iff
    rw [des_set_salt_testBit, des_set_salt_testBit]
    have hmask : ∀ j, j < 24 → (salt &&& 0xffffff).testBit j = salt.testBit j := by
      intro j hj
      rw [Nat.testBit_and]
      have h9 : (0xffffff : Nat) = 2 ^ 24 - 1 := by norm_num
      rw [h9, Nat.testBit_two_pow_sub_one]
      simp [hj]
    constructor
    · rintro ⟨h1, h3⟩
      exact ⟨h1, by rw [hmask (23 - k) (by omega)]; exact h3⟩
    · rintro ⟨h1, h3⟩
      rw [hmask (23 - k) (by omega)] at h3
      exact ⟨h1, h3⟩

/-- Witness for C4: for salt = 1, input bit 0 appears at mask bit 23. -/
theorem claim4_salt_mask_witness :
    (des_set_salt 1).testBit 23 = (1 : Nat).testBit 0 :=
  (claim4_salt_mask 1).2.1 0 (by decide)

end Des

namespace Des

/-! ### Helper lemmas for table-index bounds -/


theorem bits32_getD_lt (m : Nat) : bits32.getD m 0 < 2 ^ 32 := by
  rcases Nat.lt_or_ge m 32 with h | h
  · exact (show ∀ m, m < 32 → bits32.getD m 0 < 2 ^ 32 by decide) m h
  · rw [List.getD_eq_getElem?_getD, List.getElem?_eq_none (by simp [bits32]; omega)]
    decide

theorem bits24_lt : ∀ o, o < 24 → bits24 o < 2 ^ 24 := by decide

theorem orAccum_lt {w : Nat} (n : Nat) (f : Nat → Nat) (h : ∀ j, j < n → f j < 2 ^ w) :
    orAccum n f < 2 ^ w := by
  unfold orAccum
  apply foldl_preserve (fun x => x < 2 ^ w)
  · exact Nat.two_pow_pos w
  · intro b a ha hb
    exact Nat.or_lt_two_pow hb (h a (List.mem_range.mp ha))

theorem comp_maskl_lt (k i : Nat) : comp_maskl k i < 2 ^ 24 := by
  unfold comp_maskl
  apply orAccum_lt
  intro j hj
  dsimp only
  split_ifs with h1 h2 h3
  · exact Nat.two_pow_pos 24
  · exact bits24_lt _ h3
  · exact Nat.two_pow_pos 24
  · exact Nat.two_pow_pos 24

theorem inv_comp_perm_cases (j : Nat) : inv_comp_perm j < 48 ∨ inv_comp_perm j = 255 := by
  unfold inv_comp_perm
  dsimp only
  split_ifs with h5
  · exact Or.inl h5
  · exact Or.inr rfl

theorem comp_maskr_lt (k i : Nat) : comp_maskr k i < 2 ^ 24 := by
  unfold comp_maskr
  apply orAccum_lt
  intro j hj
  dsimp only
  split_ifs with h1 h2 h3
  · exact Nat.two_pow_pos 24
  · exact Nat.two_pow_pos 24
  · rcases inv_comp_perm_cases (7 * k + j) with h4 | h4
    · exact bits24_lt _ (by omega)
    · exact absurd h4 h2
  · exact Nat.two_pow_pos 24

theorem or8_lt {w : Nat} {a b c d e f g h : Nat}
    (ha : a < 2 ^ w) (hb : b < 2 ^ w) (hc : c < 2 ^ w) (hd : d < 2 ^ w)
    (he : e < 2 ^ w) (hf : f < 2 ^ w) (hg : g < 2 ^ w) (hh : h < 2 ^ w) :
    a ||| b ||| c ||| d ||| e ||| f ||| g ||| h < 2 ^ w :=
  Nat.or_lt_two_pow
    (Nat.or_lt_two_pow
      (Nat.or_lt_two_pow
        (Nat.or_lt_two_pow
          (Nat.or_lt_two_pow (Nat.or_lt_two_pow (Nat.or_lt_two_pow ha hb) hc) hd) he) hf) hg) hh

theorem des_set_key_keysl_lt (key : List Nat) : ∀ x ∈ (des_set_key key).1, x < 2 ^ 24 := by
  intro x hx
  simp only [des_set_key, List.mem_map] at hx
  obtain ⟨r, _, rfl⟩ := hx
  exact or8_lt (comp_maskl_lt _ _) (comp_maskl_lt _ _) (comp_maskl_lt _ _) (comp_maskl_lt _ _)
    (comp_maskl_lt _ _) (comp_maskl_lt _ _) (comp_maskl_lt _ _) (comp_maskl_lt _ _)

theorem des_set_key_keysr_lt (key : List Nat) : ∀ x ∈ (des_set_key key).2, x < 2 ^ 24 := by
  intro x hx
  simp only [des_set_key, List.mem_map] at hx
  obtain ⟨r, _, rfl⟩ := hx
  exact or8_lt (comp_maskr_lt _ _) (comp_maskr_lt _ _) (comp_maskr_lt _ _) (comp_maskr_lt _ _)
    (comp_maskr_lt _ _) (comp_maskr_lt _ _) (comp_maskr_lt _ _) (comp_maskr_lt _ _)



theorem and_shiftRight_le (r m s : Nat) : (r &&& m) >>> s ≤ m >>> s := by
  rw [Nat.shiftRight_eq_div_pow, Nat.shiftRight_eq_div_pow]
  exact Nat.div_le_div_right Nat.and_le_right

theorem and_shiftLeft_le (r m s : Nat) : (r &&& m) <<< s ≤ m <<< s := by
  rw [Nat.shiftLeft_eq, Nat.shiftLeft_eq]
  exact Nat.mul_le_mul_right _ Nat.and_le_right

theorem des_round_r48_lt (saltbits kl kr r : Nat) (hs : saltbits < 2 ^ 24)
    (hkl : kl < 2 ^ 24) (hkr : kr < 2 ^ 24) :
    (des_round_r48 saltbits kl kr r).1 < 2 ^ 24
    ∧ (des_round_r48 saltbits kl kr r).2 < 2 ^ 24 := by
  have h1 : ((r &&& 0x00000001) <<< 23) < 2 ^ 24 :=
    lt_of_le_of_lt (and_shiftLeft_le r 0x00000001 23) (by decide)
  have h2 : ((r &&& 0xf8000000) >>> 9) < 2 ^ 24 :=
    lt_of_le_of_lt (and_shiftRight_le r 0xf8000000 9) (by decide)
  have h3 : ((r &&& 0x1f800000) >>> 11) < 2 ^ 24 :=
    lt_of_le_of_lt (and_shiftRight_le r 0x1f800000 11) (by decide)
  have h4 : ((r &&& 0x01f80000) >>> 13) < 2 ^ 24 :=
    lt_of_le_of_lt (and_shiftRight_le r 0x01f80000 13) (by decide)
  have h5 : ((r &&& 0x001f8000) >>> 15) < 2 ^ 24 :=
    lt_of_le_of_lt (and_shiftRight_le r 0x001f8000 15) (by decide)
  have g1 : ((r &&& 0x0001f800) <<< 7) < 2 ^ 24 :=
    lt_of_le_of_lt (and_shiftLeft_le r 0x0001f800 7) (by decide)
  have g2 : ((r &&& 0x00001f80) <<< 5) < 2 ^ 24 :=
    lt_of_le_of_lt (and_shiftLeft_le r 0x00001f80 5) (by decide)
  have g3 : ((r &&& 0x000001f8) <<< 3) < 2 ^ 24 :=
    lt_of_le_of_lt (and_shiftLeft_le r 0x000001f8 3) (by decide)
  have g4 : ((r &&& 0x0000001f) <<< 1) < 2 ^ 24 :=
    lt_of_le_of_lt (and_shiftLeft_le r 0x0000001f 1) (by decide)
  have g5 : ((r &&& 0x80000000) >>> 31) < 2 ^ 24 :=
    lt_of_le_of_lt (and_shiftRight_le r 0x80000000 31) (by decide)
  have hl : ((r &&& 0x00000001) <<< 23)
      ||| ((r &&& 0xf8000000) >>> 9)
      ||| ((r &&& 0x1f800000) >>> 11)
      ||| ((r &&& 0x01f80000) >>> 13)
      ||| ((r &&& 0x001f8000) >>> 15) < 2 ^ 24 :=
    Nat.or_lt_two_pow (Nat.or_lt_two_pow (Nat.or_lt_two_pow (Nat.or_lt_two_pow h1 h2) h3) h4) h5
  have hr : ((r &&& 0x0001f800) <<< 7)
      ||| ((r &&& 0x00001f80) <<< 5)
      ||| ((r &&& 0x000001f8) <<< 3)
      ||| ((r &&& 0x0000001f) <<< 1)
      ||| ((r &&& 0x80000000) >>> 31) < 2 ^ 24 :=
    Nat.or_lt_two_pow (Nat.or_lt_two_pow (Nat.or_lt_two_pow (Nat.or_lt_two_pow g1 g2) g3) g4) g5
  have hf : ∀ x, x &&& saltbits < 2 ^ 24 := fun x => lt_of_le_of_lt Nat.and_le_right hs
  unfold des_round_r48
  dsimp only
  exact ⟨Nat.xor_lt_two_pow (Nat.xor_lt_two_pow hl (hf _)) hkl,
    Nat.xor_lt_two_pow (Nat.xor_lt_two_pow hr (hf _)) hkr⟩

theorem sbox_entries_lt : ∀ i, i < 8 → ∀ j, j < 64 → (sbox.getD i []).getD j 0 < 16 := by
  decide

theorem u_sbox_lt (i j : Nat) (hi : i < 8) : u_sbox i j < 16 := by
  unfold u_sbox
  apply sbox_entries_lt i hi
  have e1 : j &&& 0x20 < 2 ^ 6 := lt_of_le_of_lt Nat.and_le_right (by decide)
  have e2 : (j &&& 1) <<< 4 < 2 ^ 6 :=
    lt_of_le_of_lt (and_shiftLeft_le j 1 4) (by decide)
  have e3 : (j >>> 1) &&& 0xf < 2 ^ 6 := lt_of_le_of_lt Nat.and_le_right (by decide)
  exact Nat.or_lt_two_pow (Nat.or_lt_two_pow e1 e2) e3

theorem m_sbox_lt (b x : Nat) (hb : b < 4) : m_sbox b x < 256 := by
  unfold m_sbox
  have h1 : u_sbox (b <<< 1) (x >>> 6) < 16 := u_sbox_lt _ _ (by
    rw [Nat.shiftLeft_eq]
    omega)
  have h2 : u_sbox ((b <<< 1) + 1) (x &&& 0x3f) < 16 := u_sbox_lt _ _ (by
    rw [Nat.shiftLeft_eq]
    omega)
  have h3 : u_sbox (b <<< 1) (x >>> 6) <<< 4 < 2 ^ 8 := by
    rw [Nat.shiftLeft_eq]
    omega
  exact Nat.or_lt_two_pow h3 (by omega)

theorem psbox_lt (b i : Nat) : psbox b i < 2 ^ 32 := by
  unfold psbox
  apply orAccum_lt
  intro j hj
  dsimp only
  split_ifs
  · exact bits32_getD_lt _
  · exact Nat.two_pow_pos 32

theorem ip_maskl_lt (k i : Nat) : ip_maskl k i < 2 ^ 32 := by
  unfold ip_maskl
  apply orAccum_lt
  intro j hj
  dsimp only
  split_ifs
  · exact bits32_getD_lt _
  · exact Nat.two_pow_pos 32
  · exact Nat.two_pow_pos 32

theorem ip_maskr_lt (k i : Nat) : ip_maskr k i < 2 ^ 32 := by
  unfold ip_maskr
  apply orAccum_lt
  intro j hj
  dsimp only
  split_ifs
  · exact Nat.two_pow_pos 32
  · exact bits32_getD_lt _
  · exact Nat.two_pow_pos 32

theorem fp_maskl_lt (k i : Nat) : fp_maskl k i < 2 ^ 32 := by
  unfold fp_maskl
  apply orAccum_lt
  intro j hj
  dsimp only
  split_ifs
  · exact bits32_getD_lt _
  · exact Nat.two_pow_pos 32
  · exact Nat.two_pow_pos 32

theorem fp_maskr_lt (k i : Nat) : fp_maskr k i < 2 ^ 32 := by
  unfold fp_maskr
  apply orAccum_lt
  intro j hj
  dsimp only
  split_ifs
  · exact Nat.two_pow_pos 32
  · exact bits32_getD_lt _
  · exact Nat.two_pow_pos 32

theorem des_round_lt (saltbits kl kr l r : Nat) (hl : l < 2 ^ 32) (hr : r < 2 ^ 32) :
    (des_round saltbits kl kr (l, r)).1 < 2 ^ 32
    ∧ (des_round saltbits kl kr (l, r)).2 < 2 ^ 32 := by
  unfold des_round
  dsimp only
  refine ⟨hr, Nat.xor_lt_two_pow ?_ hl⟩
  exact Nat.or_lt_two_pow
    (Nat.or_lt_two_pow (Nat.or_lt_two_pow (psbox_lt _ _) (psbox_lt _ _)) (psbox_lt _ _))
    (psbox_lt _ _)



/-- **C7**: every table index computed during key scheduling and the round
engine is in bounds: `saltbits` and every subkey half are below `2^24`;
the expanded halves `r48l`, `r48r` stay below `2^24` through the XORs
with `f` and the subkey, so each `m_sbox` index is below 4096; each
`m_sbox` value (a `psbox` index) is below 256; `psbox` and the IP/FP
masks return 32-bit words, the round keeps both halves 32-bit, unpacked
words are 32-bit, so every IP/FP byte index is below 256 and every
key-permutation / compression index is below 128. -/
theorem claim7_indices_in_bounds :
    (∀ salt : Nat, des_set_salt salt < 2 ^ 24)
    ∧ (∀ key : List Nat,
        (∀ x ∈ (des_set_key key).1, x < 2 ^ 24) ∧ (∀ x ∈ (des_set_key key).2, x < 2 ^ 24))
    ∧ (∀ saltbits kl kr r : Nat, saltbits < 2 ^ 24 → kl < 2 ^ 24 → kr < 2 ^ 24 →
        (des_round_r48 saltbits kl kr r).1 < 2 ^ 24
        ∧ (des_round_r48 saltbits kl kr r).2 < 2 ^ 24
        ∧ (des_round_r48 saltbits kl kr r).1 >>> 12 < 4096
        ∧ (des_round_r48 saltbits kl kr r).1 &&& 0xfff < 4096
        ∧ (des_round_r48 saltbits kl kr r).2 >>> 12 < 4096
        ∧ (des_round_r48 saltbits kl kr r).2 &&& 0xfff < 4096)
    ∧ (∀ b x : Nat, b < 4 → m_sbox b x < 256)
    ∧ (∀ b i : Nat, psbox b i < 2 ^ 32)
    ∧ (∀ k i : Nat, ip_maskl k i < 2 ^ 32 ∧ ip_maskr k i < 2 ^ 32
        ∧ fp_maskl k i < 2 ^ 32 ∧ fp_maskr k i < 2 ^ 32)
    ∧ (∀ saltbits kl kr l r : Nat, l < 2 ^ 32 → r < 2 ^ 32 →
        (des_round saltbits kl kr (l, r)).1 < 2 ^ 32
        ∧ (des_round saltbits kl kr (l, r)).2 < 2 ^ 32)
    ∧ (∀ block : List Nat, (unpack_block block).1 < 2 ^ 32 ∧ (unpack_block block).2 < 2 ^ 32)
    ∧ (∀ w : Nat, w < 2 ^ 32 →
        w >>> 24 < 256 ∧ (w >>> 16) &&& 0xff < 256
        ∧ (w >>> 8) &&& 0xff < 256 ∧ w &&& 0xff < 256)
    ∧ (∀ w : Nat, w < 2 ^ 32 → w >>> 25 < 128)
    ∧ (∀ t : Nat, (t >>> 21) &&& 0x7f < 128 ∧ (t >>> 14) &&& 0x7f < 128
        ∧ (t >>> 7) &&& 0x7f < 128 ∧ t &&& 0x7f < 128) := by
  refine ⟨des_set_salt_lt,
    fun key => ⟨des_set_key_keysl_lt key, des_set_key_keysr_lt key⟩,
    ?_, fun b x hb => m_sbox_lt b x hb, fun b i => psbox_lt b i,
    fun k i => ⟨ip_maskl_lt k i, ip_maskr_lt k i, fp_maskl_lt k i, fp_maskr_lt k i⟩,
    fun saltbits kl kr l r hl hr => des_round_lt saltbits kl kr l r hl hr,
    ?_, ?_, ?_, ?_⟩
  · intro saltbits kl kr r hs hkl hkr
    have h := des_round_r48_lt saltbits kl kr r hs hkl hkr
    refine ⟨h.1, h.2, ?_, ?_, ?_, ?_⟩
    · rw [Nat.shiftRight_eq_div_pow]
      omega
    · exact lt_of_le_of_lt Nat.and_le_right (by decide)
    · rw [Nat.shiftRight_eq_div_pow]
      omega
    · exact lt_of_le_of_lt Nat.and_le_right (by decide)
  · intro block
    rw [unpack_block_eq]
    refine ⟨?_, ?_⟩ <;> (dsimp only; omega)
  · intro w hw
    refine ⟨?_, ?_, ?_, ?_⟩
    · rw [Nat.shiftRight_eq_div_pow]
      omega
    · exact lt_of_le_of_lt Nat.and_le_right (by decide)
    · exact lt_of_le_of_lt Nat.and_le_right (by decide)
    · exact lt_of_le_of_lt Nat.and_le_right (by decide)
  · intro w hw
    rw [Nat.shiftRight_eq_div_pow]
    omega
  · intro t
    exact ⟨lt_of_le_of_lt Nat.and_le_right (by decide),
      lt_of_le_of_lt Nat.and_le_right (by decide),
      lt_of_le_of_lt Nat.and_le_right (by decide),
      lt_of_le_of_lt Nat.and_le_right (by decide)⟩

theorem claim7_indices_in_bounds_witness :
    (des_round_r48 0 0 0 0).1 < 2 ^ 24
    ∧ m_sbox 0 0 < 256
    ∧ (des_round 0 0 0 (0, 0)).2 < 2 ^ 32
    ∧ (0x12345678 : Nat) >>> 25 < 128 :=
  ⟨(claim7_indices_in_bounds.2.2.1 0 0 0 0 (by decide) (by decide) (by decide)).1,
   claim7_indices_in_bounds.2.2.2.1 0 0 (by decide),
   (claim7_indices_in_bounds.2.2.2.2.2.2.1 0 0 0 0 0 (by decide) (by decide)).2,
   claim7_indices_in_bounds.2.2.2.2.2.2.2.2.2.1 0x12345678 (by decide)⟩

end Des
